import Mathlib

/-!
Verification of the gpxplotter GPX track-processing pipeline.

The definitions below are a shallow embedding of the Python sources
`gpxplotter/common.py` and `gpxplotter/gpxread.py`.  Machine floats are
modelled by exact rationals; the transcendental functions used by the
Vincenty geodesic solver are abstracted into a `TrigModel` parameter,
and the external numeric routines (scipy spline fitting, sklearn
clustering) are abstracted into function parameters, since only their
results flow through the code under verification.
-/

namespace Gpxplotter

/-- Heart-rate limit fractions, from `common.py` (`HR_LIMITS`). -/
def HR_LIMITS : List (ℚ × ℚ) :=
  [(1/2, 6/10), (6/10, 7/10), (7/10, 8/10), (8/10, 9/10), (9/10, 1)]

/-- Embedding of `heart_rate_zone_limits` (common.py).  The Python
default argument `limits=None` is modelled by an `Option`: `none`
selects `HR_LIMITS`. -/
def heart_rate_zone_limits (max_heart_rate : ℚ) (limits : Option (List (ℚ × ℚ))) :
    List (ℚ × ℚ) :=
  (limits.getD HR_LIMITS).map (fun i => (max_heart_rate * i.1, max_heart_rate * i.2))

/-- Embedding of `np.digitize(x, bins, right=False)` for an increasing
list of bin edges, as used in `update_hr_zones` (common.py): the result
is the index `i` with `bins[i-1] <= x < bins[i]`, which for increasing
bins equals the number of edges that are `<= x`. -/
def digitize (x : ℚ) (bins : List ℚ) : Nat :=
  bins.countP (fun b => decide (b ≤ x))

/-- First scanning loop of `find_regions` (common.py): walking the list
with the current index `i` and current run value `ry`, emit `(i, ry)`
whenever the value changes, and emit `(last_index, ry)` when the list is
exhausted (the Python loop appends `[i, region_y]` after the loop, where
`i` then holds the last index, which is `i - 1` here since `i` counts
the elements consumed so far). -/
def scanChanges {α : Type} [DecidableEq α] (i : Nat) (ry : α) : List α → List (Nat × α)
  | [] => [(i - 1, ry)]
  | y :: ys =>
      if y = ry then scanChanges (i + 1) ry ys
      else (i, ry) :: scanChanges (i + 1) y ys

/-- Second loop of `find_regions` (common.py): each pair `(c, v)` from
the first pass becomes a triple `(prev, c, v)` where `prev` is the first
component of the preceding pair (`regions[i-1][0]` in the source) and
`0` for the first pair.  The Python loop indexes into the list; here the
previous first component is threaded through the recursion, which is the
same value. -/
def pass2 {α : Type} (prev : Nat) : List (Nat × α) → List (Nat × Nat × α)
  | [] => []
  | (c, v) :: rest => (prev, c, v) :: pass2 c rest

/-- Embedding of `find_regions` (common.py, lines 72-108). -/
def find_regions {α : Type} [DecidableEq α] (yval : List α) : List (Nat × Nat × α) :=
  let regions : List (Nat × α) :=
    match yval with
    | [] => []
    | y :: ys => scanChanges 1 y ys
  pass2 0 regions

/-- Reconstruction of a value list from a region list: every region
except the last contributes its value on the half-open index range
`[start, end)`, and the last region contributes on the closed range
`[start, end]`.  This is the decoding under which `find_regions` is
exact. -/
def decodeRegions {α : Type} : List (Nat × Nat × α) → List α
  | [] => []
  | [(s, e, v)] => List.replicate (e + 1 - s) v
  | (s, e, v) :: r :: rest => List.replicate (e - s) v ++ decodeRegions (r :: rest)

/-- Reconstruction of a value list from a change list produced by
`scanChanges`, starting at index `i`: a non-final pair `(c, v)` covers
`[i, c)` and the final pair covers `[i, c]`. -/
def decodeChanges {α : Type} (i : Nat) : List (Nat × α) → List α
  | [] => []
  | [(c, v)] => List.replicate (c + 1 - i) v
  | (c, v) :: r :: rest => List.replicate (c - i) v ++ decodeChanges c (r :: rest)

/-- Statement form of claim C1 over the embedding: every `find_regions`
triple would have its value equal to `yval` at every index of its
closed range `[start, end]` (the bounded quantifier over
`j < end + 1` makes the statement decidable on concrete input). -/
def regionsMatchClaim (yval : List ℚ) : Prop :=
  ∀ r ∈ find_regions yval, ∀ j < r.2.1 + 1, r.1 ≤ j → yval[j]? = some r.2.2

/-- Abstraction of the transcendental functions from Python `math` used
by `vincenty` (gpxread.py).  Machine floats are modelled as exact
rationals, and the library functions become parameters; facts that the
floating-point versions satisfy exactly (such as `sin 0 = 0`,
`cos 0 = 1`, `sqrt 0 = 0`) become hypotheses of the theorems that need
them. -/
structure TrigModel where
  sin : ℚ → ℚ
  cos : ℚ → ℚ
  tan : ℚ → ℚ
  atan : ℚ → ℚ
  atan2 : ℚ → ℚ → ℚ
  sqrt : ℚ → ℚ
  radians : ℚ → ℚ

/-- WGS-84 flattening used by `vincenty` (gpxread.py): `1/298.257223563`. -/
def flattening : ℚ := 1 / (298257223563 / 10 ^ 9)

/-- WGS-84 semi-major axis used by `vincenty` (gpxread.py). -/
def major_axis : ℚ := 6378137

/-- WGS-84 semi-minor axis used by `vincenty` (gpxread.py): `6356752.314245`. -/
def minor_axis : ℚ := 6356752314245 / 10 ^ 6

/-- Per-call constants of `vincenty` (gpxread.py) computed before the
iteration: the sines and cosines of the reduced latitudes, and the
longitude difference in radians. -/
structure VPair where
  sin1 : ℚ
  cos1 : ℚ
  sin2 : ℚ
  cos2 : ℚ
  diff_long : ℚ
deriving DecidableEq, Repr

/-- Setup phase of `vincenty` (gpxread.py, lines 55-65): reduced
latitudes via `atan((1 - flattening) * tan(radians(lat)))`, their sines
and cosines, and `diff_long = radians(lon2) - radians(lon1)`. -/
def vincentySetup (T : TrigModel) (point1 point2 : ℚ × ℚ) : VPair :=
  let rlat1 := T.atan ((1 - flattening) * T.tan (T.radians point1.1))
  let rlat2 := T.atan ((1 - flattening) * T.tan (T.radians point2.1))
  { sin1 := T.sin rlat1
    cos1 := T.cos rlat1
    sin2 := T.sin rlat2
    cos2 := T.cos rlat2
    diff_long := T.radians point2.2 - T.radians point1.2 }

/-- Loop variables of `vincenty` (gpxread.py) that outlive the loop and
feed the final distance formula. -/
structure VState where
  sin_sigma : ℚ
  cos_sigma : ℚ
  sigma : ℚ
  cos_alpha_sq : ℚ
  cos_sigma2 : ℚ
deriving DecidableEq, Repr

/-- The `sin_sigma` expression computed at the top of each `vincenty`
iteration (gpxread.py, lines 68-71). -/
def sinSigma (T : TrigModel) (a : VPair) (lambd : ℚ) : ℚ :=
  T.sqrt ((a.cos2 * T.sin lambd) ^ 2 +
    (a.cos1 * a.sin2 - a.sin1 * a.cos2 * T.cos lambd) ^ 2)

/-- Body of one `vincenty` iteration (gpxread.py, lines 68-95) after the
`sin_sigma == 0` early return has been ruled out: computes the loop
state and the updated `lambda`. -/
def vStep (T : TrigModel) (a : VPair) (lambd : ℚ) : VState × ℚ :=
  let s := sinSigma T a lambd
  let cos_sigma := a.sin1 * a.sin2 + a.cos1 * a.cos2 * T.cos lambd
  let sigma := T.atan2 s cos_sigma
  let sin_alpha := (a.cos1 * a.cos2 * T.sin lambd) / s
  let cos_alpha_sq := 1 - sin_alpha ^ 2
  let cos_sigma2 :=
    if cos_alpha_sq = 0 then 0
    else cos_sigma - ((2 * a.sin1 * a.sin2) / cos_alpha_sq)
  let cvar := (flattening / 16) * cos_alpha_sq *
    (4 + flattening * (4 - 3 * cos_alpha_sq))
  let lambd1 := a.diff_long + (1 - cvar) * flattening * sin_alpha *
    (sigma + cvar * s *
      (cos_sigma2 + cvar * (cos_sigma * (-1 + 2 * cos_sigma2 ^ 2))))
  ({ sin_sigma := s, cos_sigma := cos_sigma, sigma := sigma,
     cos_alpha_sq := cos_alpha_sq, cos_sigma2 := cos_sigma2 }, lambd1)

/-- The sequence of `lambda` iterates of the `vincenty` loop, starting
from a given initial value (`diff_long` in the source). -/
def lambdaSeq (T : TrigModel) (a : VPair) (lambd0 : ℚ) : Nat → ℚ
  | 0 => lambd0
  | n + 1 => (vStep T a (lambdaSeq T a lambd0 n)).2

/-- Outcome of the `vincenty` iteration: the early `return 0.0` taken
when `sin_sigma == 0.0`, or the loop state at the iteration whose
`lambda` update moved by at most `tol`. -/
inductive VOut where
  | zero
  | state (s : VState)
deriving DecidableEq, Repr

/-- The `for _ in range(maxitr)` loop of `vincenty` (gpxread.py, lines
67-99), with the iteration count as fuel: each iteration first checks
`sin_sigma == 0.0` (early return `0.0`), then updates `lambda` and
stops once `abs(lambd0 - lambd) <= tol`; exhausting `maxitr` iterations
without converging raises `ValueError`. -/
def vincentyLoop (T : TrigModel) (a : VPair) (tol : ℚ) :
    Nat → ℚ → Except String VOut
  | 0, _ => .error "vincenty formulae did not converge"
  | n + 1, lambd =>
      if sinSigma T a lambd = 0 then .ok .zero
      else
        let r := vStep T a lambd
        if |lambd - r.2| ≤ tol then .ok (.state r.1)
        else vincentyLoop T a tol n r.2

/-- Final distance formula of `vincenty` (gpxread.py, lines 100-117),
evaluated on the loop state at convergence. -/
def vincentyFinal (st : VState) : ℚ :=
  let uvar_sq := st.cos_alpha_sq * ((major_axis ^ 2 - minor_axis ^ 2) / minor_axis ^ 2)
  let avar := 1 + (uvar_sq / 16384) *
    (4096 + uvar_sq * (-768 + uvar_sq * (320 - 175 * uvar_sq)))
  let bvar := (uvar_sq / 1024) *
    (256 + uvar_sq * (-128 + uvar_sq * (74 - 47 * uvar_sq)))
  let delta_sigma := bvar * st.sin_sigma *
    (st.cos_sigma2 + (1/4) * bvar *
      (st.cos_sigma * (-1 + 2 * st.cos_sigma2 ^ 2) - (bvar / 6) *
        (st.cos_sigma2 *
          ((-3 + 4 * st.sin_sigma ^ 2) * (-3 + 4 * st.cos_sigma2 ^ 2)))))
  minor_axis * avar * (st.sigma - delta_sigma)

/-- Embedding of `vincenty` (gpxread.py, lines 21-118).  The raised
`ValueError` on non-convergence becomes an `Except.error`. -/
def vincenty (T : TrigModel) (point1 point2 : ℚ × ℚ) (tol : ℚ) (maxitr : Nat) :
    Except String ℚ :=
  let a := vincentySetup T point1 point2
  match vincentyLoop T a tol maxitr a.diff_long with
  | .error e => .error e
  | .ok .zero => .ok 0
  | .ok (.state st) => .ok (vincentyFinal st)

/-- Accumulating loop of `get_distances` (gpxread.py, lines 196-220) for
the points after the first: each step appends
`dist[-1] + vincenty((lati, loni), (lat[i-1], lon[i-1]))` (note the
source passes the current point first and the previous point second).
The geodesic function is a parameter of the same `Except`-valued shape
as `vincenty`; an error propagates as the uncaught `ValueError` would. -/
def get_distances_go (dist : ℚ × ℚ → ℚ × ℚ → Except String ℚ)
    (prev : ℚ × ℚ) (acc : ℚ) : List (ℚ × ℚ) → Except String (List ℚ)
  | [] => .ok []
  | p :: ps =>
      match dist p prev with
      | .error e => .error e
      | .ok d => (get_distances_go dist p (acc + d) ps).map (fun l => (acc + d) :: l)

/-- Embedding of `get_distances` (gpxread.py, lines 196-220): the
cumulative distances along `zip lat lon`, starting from `0`. -/
def get_distances (dist : ℚ × ℚ → ℚ × ℚ → Except String ℚ)
    (lat lon : List ℚ) : Except String (List ℚ) :=
  match lat.zip lon with
  | [] => .ok []
  | p :: ps => (get_distances_go dist p 0 ps).map (fun l => 0 :: l)

/-- Pure form of `get_distances_go` for a geodesic function that always
succeeds; related to it by `get_distances_go_pure`. -/
def distGoPure (d : ℚ × ℚ → ℚ × ℚ → ℚ) (prev : ℚ × ℚ) (acc : ℚ) :
    List (ℚ × ℚ) → List ℚ
  | [] => []
  | p :: ps => (acc + d p prev) :: distGoPure d p (acc + d p prev) ps

/-- Embedding of `approximate_velocity` (gpxread.py, lines 241-257).
The scipy spline fit and its derivative, external numeric code, are a
parameter `splineDeriv` taking the time and distance samples and
returning the derivative values at the time samples, or `none` when the
fitting raised (the source then warns and returns `None`).  The
clamping `vel[np.where(vel < 0)] = 0.0` becomes a pointwise map. -/
def approximate_velocity (splineDeriv : List ℚ → List ℚ → Option (List ℚ))
    (distance time : List ℚ) : Option (List ℚ) :=
  (splineDeriv time distance).map (fun vel =>
    vel.map (fun v => if v < 0 then 0 else v))

/-- Pace construction from `get_velocity` (gpxread.py, lines 279-281):
`pace` starts as `np.zeros_like(velocity)` and is overwritten with
`1.0 / ((60. / 1000) * velocity)` exactly at the indices where
`velocity > 0`. -/
def get_pace (velocity : List ℚ) : List ℚ :=
  velocity.map (fun v => if 0 < v then 1 / ((60 / 1000) * v) else 0)

/-- The segment fields set by `get_velocity` (gpxread.py, lines
260-285). -/
structure VelocityFields where
  velocity : Option (List ℚ)
  velocity_kmh : Option (List ℚ)
  pace : Option (List ℚ)
  velocity_level : Option (List Nat)
deriving DecidableEq, Repr

/-- Embedding of `get_velocity` (gpxread.py, lines 260-285), taking the
`distance` and `elapsed-time` arrays the source reads off the segment
(its caller guards that both keys exist).  The sklearn k-means
clustering of `cluster_velocities` is external numeric code and is a
parameter returning `none` when clustering is skipped. -/
def get_velocity (splineDeriv : List ℚ → List ℚ → Option (List ℚ))
    (cluster : List ℚ → Option (List Nat))
    (distance elapsed : List ℚ) : VelocityFields :=
  match approximate_velocity splineDeriv distance elapsed with
  | none => { velocity := none, velocity_kmh := none, pace := none, velocity_level := none }
  | some vel =>
      { velocity := some vel
        velocity_kmh := some (vel.map (fun v => (36 / 10) * v))
        pace := some (get_pace vel)
        velocity_level := cluster vel }

/-- The segment fields set by `update_hr_zones` (common.py, lines
111-143).  `zone_txt` is modelled by the zone limits the source renders
to text with `get_limits_txt`; the string formatting is presentation
only. -/
structure HrFields where
  hr_zone : List Nat
  hr_zone_float : List ℚ
  hr_zone_frac : List ℚ
  hr_regions : List (Nat × Nat × Nat)
  zone_txt : List (ℚ × ℚ)
deriving DecidableEq, Repr

/-- The body of the `hr-zone-float` loop of `update_hr_zones`
(common.py, lines 127-139): linear interpolation of the heart rate
inside the bounds of its assigned zone. -/
def zoneFloat (max_heart_rate : ℚ) (bins : List ℚ) (hrate : ℚ) (zone : Nat) : ℚ :=
  let left := if zone = 0 then 0
    else if zone = bins.length then bins.getLastD 0
    else bins.getD (zone - 1) 0
  let right := if zone = 0 then bins.headD 0
    else if zone = bins.length then max_heart_rate
    else bins.getD zone 0
  (zone : ℚ) + (hrate - left) / (right - left)

/-- Embedding of `update_hr_zones` (common.py, lines 111-143) for a
segment that has an `hr` array: computes `hr-zone` by digitizing on the
lower zone limits, `hr-zone-float` by interpolation, `hr-zone-frac`,
and `hr-regions` via `find_regions`. -/
def update_hr_zones (max_heart_rate : ℚ) (hr : List ℤ) : HrFields :=
  let limits := heart_rate_zone_limits max_heart_rate none
  let bins := limits.map Prod.fst
  let hr_zone := hr.map (fun h => digitize (h : ℚ) bins)
  { hr_zone := hr_zone
    hr_zone_float := (hr.zip hr_zone).map
      (fun p => zoneFloat max_heart_rate bins (p.1 : ℚ) p.2)
    hr_zone_frac := hr.map (fun h => (h : ℚ) / max_heart_rate)
    hr_regions := find_regions hr_zone
    zone_txt := limits }

/-- Embedding of `np.trapz(y, x)`: trapezoidal integration of the
samples `y` against the sample positions `x`. -/
def trapz : List ℚ → List ℚ → ℚ
  | y1 :: y2 :: ys, x1 :: x2 :: xs =>
      (x2 - x1) * (y1 + y2) / 2 + trapz (y2 :: ys) (x2 :: xs)
  | _, _ => 0

/-- Outcome of `extract_data` (gpxread.py, lines 121-134) for one
optional field of one track point: the tag can be absent (the source
returns `None`), present with each child converted by the formatter, or
present with a child on which the formatter raises. -/
inductive Extract (α : Type) where
  | absent
  | ok (vals : List α)
  | err
deriving DecidableEq, Repr

/-- A raw `trkpt` element as seen by `get_point_data` (gpxread.py).
`lat`/`lon` model `float(point.getAttribute(...))`: `none` when the
attribute is missing (`getAttribute` returns the empty string and
`float` raises) or its text does not parse as a float.  The optional
fields carry the outcome of `extract_data` with the field formatter
(`float` for elevation, cadence and temperature, `int` for heart rate,
`dateutil.parser.parse` for time; timestamps are modelled as rational
seconds). -/
structure RawPoint where
  lat : Option ℚ
  lon : Option ℚ
  ele : Extract ℚ
  time : Extract ℚ
  temp : Extract ℚ
  hr : Extract ℤ
  cad : Extract ℚ
deriving DecidableEq, Repr

/-- The per-point mapping built by `get_point_data` (gpxread.py, lines
137-157): `lat`/`lon` always present, each optional field present only
when its tag was found. -/
structure PointData where
  lat : ℚ
  lon : ℚ
  elevation : Option (List ℚ)
  time : Option (List ℚ)
  temp : Option (List ℚ)
  hr : Option (List ℤ)
  cad : Option (List ℚ)
deriving DecidableEq, Repr

/-- The result of one `extract_data` call as used in `get_point_data`:
absence omits the key, success stores the converted list, and a
formatter exception propagates (the source has no handler around the
list comprehension). -/
def extractField {α : Type} : Extract α → Except Unit (Option (List α))
  | .absent => .ok none
  | .ok vals => .ok (some vals)
  | .err => .error ()

/-- Embedding of `get_point_data` (gpxread.py, lines 137-157).  The
`ValueError` raised by `float` applied to the `lat` attribute text on a missing
or malformed mandatory attribute, or by a formatter inside
`extract_data`, becomes an `Except.error`; the source has no handler,
so the error propagates to the caller. -/
def get_point_data (p : RawPoint) : Except Unit PointData := do
  let lat ← match p.lat with | some v => .ok v | none => .error ()
  let lon ← match p.lon with | some v => .ok v | none => .error ()
  let elevation ← extractField p.ele
  let time ← extractField p.time
  let temp ← extractField p.temp
  let hr ← extractField p.hr
  let cad ← extractField p.cad
  .ok { lat := lat, lon := lon, elevation := elevation, time := time,
        temp := temp, hr := hr, cad := cad }

/-- A segment mapping, before and after `process_segment`.  Each field
is `none` while the corresponding dictionary key is absent.  Fields up
to `cad` are filled by `read_segment`; the rest are added by
`process_segment` (timestamps and elapsed times as rational seconds,
`zone_txt` as the zone limits, `average_hr`, `elevation_up` and
`elevation_down` as scalars). -/
structure Segment where
  lat : Option (List ℚ)
  lon : Option (List ℚ)
  elevation : Option (List ℚ)
  time : Option (List ℚ)
  temp : Option (List ℚ)
  hr : Option (List ℤ)
  cad : Option (List ℚ)
  latlon : Option (List (ℚ × ℚ))
  elapsed_time : Option (List ℚ)
  distance : Option (List ℚ)
  distance_km : Option (List ℚ)
  velocity : Option (List ℚ)
  velocity_kmh : Option (List ℚ)
  pace : Option (List ℚ)
  velocity_level : Option (List Nat)
  hr_zone : Option (List Nat)
  hr_zone_float : Option (List ℚ)
  hr_zone_frac : Option (List ℚ)
  hr_regions : Option (List (Nat × Nat × Nat))
  zone_txt : Option (List (ℚ × ℚ))
  average_hr : Option ℚ
  elevation_up : Option ℚ
  elevation_down : Option ℚ
  heart_rate : Option (List ℤ)
deriving DecidableEq, Repr

/-- The empty segment mapping: the dictionary `data = {}` of
`read_segment` before any point is consumed (no keys at all). -/
def emptySegment : Segment :=
  { lat := none, lon := none, elevation := none, time := none, temp := none,
    hr := none, cad := none, latlon := none, elapsed_time := none,
    distance := none, distance_km := none, velocity := none,
    velocity_kmh := none, pace := none, velocity_level := none,
    hr_zone := none, hr_zone_float := none, hr_zone_frac := none,
    hr_regions := none, zone_txt := none, average_hr := none,
    elevation_up := none, elevation_down := none, heart_rate := none }

/-- Appending one extracted list onto an accumulating field of the
segment dictionary (`data[key].extend(val)` after creating the key if
needed, gpxread.py lines 181-187). -/
def appendMany {α : Type} (cur : Option (List α)) (vals : List α) : Option (List α) :=
  some (cur.getD [] ++ vals)

/-- Appending one scalar onto an accumulating field: for `lat`/`lon`
the value is a float, `extend` raises `TypeError` and the handler does
`data[key].append(val)` (gpxread.py lines 184-187). -/
def appendOne {α : Type} (cur : Option (List α)) (v : α) : Option (List α) :=
  some (cur.getD [] ++ [v])

/-- Folding one extracted point into the accumulating segment
dictionary (the inner `for key, val in point_data.items()` loop of
`read_segment`). -/
def addPoint (seg : Segment) (pd : PointData) : Segment :=
  { seg with
    lat := appendOne seg.lat pd.lat
    lon := appendOne seg.lon pd.lon
    elevation := match pd.elevation with
      | none => seg.elevation
      | some vs => appendMany seg.elevation vs
    time := match pd.time with
      | none => seg.time
      | some vs => appendMany seg.time vs
    temp := match pd.temp with
      | none => seg.temp
      | some vs => appendMany seg.temp vs
    hr := match pd.hr with
      | none => seg.hr
      | some vs => appendMany seg.hr vs
    cad := match pd.cad with
      | none => seg.cad
      | some vs => appendMany seg.cad vs }

/-- The point loop of `read_segment` (gpxread.py, lines 173-187).  The
source calls `get_point_data` with no exception handler, so an
extraction failure aborts the whole segment read; the guard
`if any([i is None for i in data]): continue` iterates over the KEYS of
the accumulated dictionary, which are strings and never `None`, so it
never fires and is omitted here. -/
def read_segment_go (seg : Segment) : List RawPoint → Except Unit Segment
  | [] => .ok seg
  | p :: ps =>
      match get_point_data p with
      | .error e => .error e
      | .ok pd => read_segment_go (addPoint seg pd) ps

/-- Embedding of `read_segment` (gpxread.py, lines 160-193).  The final
`np.array` conversions change only the container representation (and
`hr` is already an integer list here), so the accumulated lists are
returned as they are. -/
def read_segment (points : List RawPoint) : Except Unit Segment :=
  read_segment_go emptySegment points

/-- Python exceptions that can escape `process_segment`: a `KeyError`
or `IndexError` on the named key, or the `ValueError` propagated from
`vincenty`. -/
inductive PyErr where
  | key (k : String)
  | index (k : String)
  | value (msg : String)
deriving DecidableEq, Repr

/-- Default convergence tolerance of `vincenty`: `10**-12`. -/
def defaultTol : ℚ := 1 / 10 ^ 12

/-- Embedding of `process_segment` (gpxread.py, lines 287-333),
following the source statement order.  the `lat` and `lon` keys are read unguarded (a missing key is a `KeyError`);
`time[0]` and `elapsed-time[-1]`/`[0]` on empty arrays are
`IndexError`s; the `ValueError` of a non-convergent `vincenty` call
propagates through `get_distances`.  The division by `delta_time` and
the divisions inside the heart-rate interpolation are numpy float
divisions, which warn rather than raise on zero; rational division by
zero (yielding `0`) stands in for them.  The spline derivative and the
k-means clustering are external numeric code, passed as parameters as
in `get_velocity`. -/
def process_segment (T : TrigModel)
    (splineDeriv : List ℚ → List ℚ → Option (List ℚ))
    (cluster : List ℚ → Option (List Nat))
    (max_heart_rate : ℚ) (seg : Segment) : Except PyErr Segment := do
  let lat ← match seg.lat with
    | some l => Except.ok l
    | none => Except.error (.key "lat")
  let lon ← match seg.lon with
    | some l => Except.ok l
    | none => Except.error (.key "lon")
  let seg := { seg with latlon := some (lat.zip lon) }
  let seg ← match seg.time with
    | none => Except.ok seg
    | some [] => Except.error (.index "time")
    | some (t0 :: ts) =>
        Except.ok { seg with elapsed_time := some ((t0 :: ts).map (fun t => t - t0)) }
  let distance ← match get_distances (fun p q => vincenty T p q defaultTol 1000) lat lon with
    | .error e => Except.error (.value e)
    | .ok d => Except.ok d
  let seg := { seg with
    distance := some distance
    distance_km := some (distance.map (fun d => d / 1000)) }
  let seg := match seg.distance, seg.elapsed_time with
    | some d, some e =>
        let vf := get_velocity splineDeriv cluster d e
        { seg with velocity := vf.velocity, velocity_kmh := vf.velocity_kmh,
                   pace := vf.pace, velocity_level := vf.velocity_level }
    | _, _ => seg
  let seg ← match seg.hr with
    | none => Except.ok seg
    | some hrl =>
        let hf := update_hr_zones max_heart_rate hrl
        let seg := { seg with
          hr_zone := some hf.hr_zone
          hr_zone_float := some hf.hr_zone_float
          hr_zone_frac := some hf.hr_zone_frac
          hr_regions := some hf.hr_regions
          zone_txt := some hf.zone_txt }
        match seg.elapsed_time with
        | none => Except.ok seg
        | some el =>
            match el.getLast?, el.head? with
            | some lastT, some firstT =>
                Except.ok { seg with
                  average_hr :=
                    some (trapz (hrl.map (fun h => (h : ℚ))) el / (lastT - firstT)) }
            | _, _ => Except.error (.index "elapsed-time")
  let seg := match seg.elevation with
    | none => seg
    | some el =>
        let diffs := (el.zip el.tail).map (fun (p : ℚ × ℚ) => p.2 - p.1)
        { seg with
          elevation_up := some ((diffs.filter (fun x => decide (0 < x))).sum)
          elevation_down := some ((diffs.filter (fun x => decide (x < 0))).sum) }
  let seg := match seg.hr with
    | none => seg
    | some hrl => { seg with heart_rate := some hrl }
  return seg

/-- A concrete trig model used to instantiate theorems on concrete
inputs: constant sine `0`, constant cosine `1`, square root fixed to
`0`, identities elsewhere.  It satisfies `sin 0 = 0`, `cos 0 = 1` and
`sqrt 0 = 0`. -/
def trigZero : TrigModel :=
  { sin := fun _ => 0, cos := fun _ => 1, tan := fun x => x,
    atan := fun x => x, atan2 := fun _ _ => 0, sqrt := fun _ => 0,
    radians := fun x => x }

/-- A concrete trig model whose square root is the constant `1`, so
that the `sin_sigma == 0` early return never fires. -/
def trigOne : TrigModel :=
  { sin := fun _ => 0, cos := fun _ => 1, tan := fun x => x,
    atan := fun x => x, atan2 := fun _ _ => 0, sqrt := fun _ => 1,
    radians := fun x => x }

/-- A concrete spline-derivative stand-in returning fixed samples. -/
def splineConstA : List ℚ → List ℚ → Option (List ℚ) := fun _ _ => some [2, 0]

/-- A concrete spline-derivative stand-in returning a sample list with
a negative entry. -/
def splineConstB : List ℚ → List ℚ → Option (List ℚ) := fun _ _ => some [-1, 2]

/-- A spline-derivative stand-in for a failed fit. -/
def splineFailed : List ℚ → List ℚ → Option (List ℚ) := fun _ _ => none

/-- A clustering stand-in that always skips clustering. -/
def clusterSkip : List ℚ → Option (List Nat) := fun _ => none

/-- A symmetric stand-in for the geodesic distance function. -/
def distOne : ℚ × ℚ → ℚ × ℚ → ℚ := fun _ _ => 1

/-- A track point with only the mandatory attributes present. -/
def goodPoint : RawPoint :=
  { lat := some 60, lon := some 10, ele := .absent, time := .absent,
    temp := .absent, hr := .absent, cad := .absent }

/-- A track point whose `lat` attribute is missing, so that
`float` applied to the `lat` attribute text raises `ValueError`. -/
def badPoint : RawPoint :=
  { goodPoint with lat := none }

/-- C7: heart-rate zone classification is right-exclusive on the zone
boundaries: with `max_heart_rate = 200` the boundaries are
`[100, 120, 140, 160, 180]`, so a heart rate of exactly 100 falls in
zone 1, a heart rate of 0 in zone 0, and a heart rate of 200 (equal to
`max_heart_rate`) in the top zone 5. -/
theorem hr_zone_boundaries :
    (update_hr_zones 200 [100]).hr_zone = [1] ∧
    (update_hr_zones 200 [0]).hr_zone = [0] ∧
    (update_hr_zones 200 [200]).hr_zone = [5] := by
  refine ⟨?_, ?_, ?_⟩ <;>
    norm_num [update_hr_zones, heart_rate_zone_limits, HR_LIMITS, digitize,
      List.countP_cons, List.countP_nil]

/-- C10: for every heart-rate array and every positive
`max_heart_rate`, every value of the `hr-zone` array lies in `0..5`:
digitizing counts at most the five lower zone boundaries. -/
theorem hr_zone_range (max_heart_rate : ℚ) (hpos : 0 < max_heart_rate)
    (hr : List ℤ) (z : Nat)
    (hz : z ∈ (update_hr_zones max_heart_rate hr).hr_zone) :
    0 ≤ z ∧ z ≤ 5 := by
  refine ⟨Nat.zero_le z, ?_⟩
  simp only [update_hr_zones, List.mem_map] at hz
  obtain ⟨h, -, rfl⟩ := hz
  have hlen : ((heart_rate_zone_limits max_heart_rate none).map Prod.fst).length = 5 := by
    simp [heart_rate_zone_limits, HR_LIMITS]
  calc digitize (h : ℚ) ((heart_rate_zone_limits max_heart_rate none).map Prod.fst)
      ≤ ((heart_rate_zone_limits max_heart_rate none).map Prod.fst).length :=
        List.countP_le_length _
    _ = 5 := hlen

/-- Witness for C10 at `max_heart_rate = 200`, `hr = [150]`. -/
theorem hr_zone_range_witness :
    (0 : ℚ) < 200 ∧ 3 ∈ (update_hr_zones 200 [150]).hr_zone ∧ (0 ≤ 3 ∧ 3 ≤ 5) :=
  ⟨by norm_num,
    by norm_num [update_hr_zones, heart_rate_zone_limits, HR_LIMITS, digitize,
      List.countP_cons, List.countP_nil],
    hr_zone_range 200 (by norm_num) [150] 3
      (by norm_num [update_hr_zones, heart_rate_zone_limits, HR_LIMITS, digitize,
        List.countP_cons, List.countP_nil])⟩

/-- C8: whenever `get_velocity` stores a velocity array, it stores a
pace array of the same length, with `pace = 1 / ((60/1000) * velocity)`
at every index with positive velocity and `pace = 0` at every index
with zero velocity. -/
theorem pace_pointwise (splineDeriv : List ℚ → List ℚ → Option (List ℚ))
    (cluster : List ℚ → Option (List Nat)) (distance elapsed : List ℚ)
    (v p : List ℚ)
    (hv : (get_velocity splineDeriv cluster distance elapsed).velocity = some v)
    (hp : (get_velocity splineDeriv cluster distance elapsed).pace = some p) :
    p.length = v.length ∧
    ∀ i (hi : i < v.length) (hip : i < p.length),
      (0 < v.get ⟨i, hi⟩ → p.get ⟨i, hip⟩ = 1 / ((60 / 1000) * v.get ⟨i, hi⟩)) ∧
      (v.get ⟨i, hi⟩ = 0 → p.get ⟨i, hip⟩ = 0) := by
  unfold get_velocity at hv hp
  cases hap : approximate_velocity splineDeriv distance elapsed with
  | none => rw [hap] at hv; exact absurd hv (by simp)
  | some vel =>
      rw [hap] at hv hp
      simp only [Option.some.injEq] at hv hp
      subst hv
      subst hp
      refine ⟨by simp [get_pace], ?_⟩
      intro i hi hip
      constructor
      · intro hpos
        simp only [get_pace, List.get_eq_getElem, List.getElem_map] at hpos ⊢
        rw [if_pos hpos]
      · intro hzero
        simp only [get_pace, List.get_eq_getElem, List.getElem_map] at hzero ⊢
        rw [hzero, if_neg (lt_irrefl 0)]

/-- Witness for C8 with a spline stand-in producing velocities `[2, 0]`. -/
theorem pace_pointwise_witness :
    (get_velocity splineConstA clusterSkip [] []).velocity = some [2, 0] ∧
    (get_velocity splineConstA clusterSkip [] []).pace = some [25/3, 0] ∧
    (([25/3, 0] : List ℚ).length = ([2, 0] : List ℚ).length ∧
      ∀ i (hi : i < ([2, 0] : List ℚ).length) (hip : i < ([25/3, 0] : List ℚ).length),
        (0 < ([2, 0] : List ℚ).get ⟨i, hi⟩ →
          ([25/3, 0] : List ℚ).get ⟨i, hip⟩ =
            1 / ((60 / 1000) * ([2, 0] : List ℚ).get ⟨i, hi⟩)) ∧
        (([2, 0] : List ℚ).get ⟨i, hi⟩ = 0 →
          ([25/3, 0] : List ℚ).get ⟨i, hip⟩ = 0)) :=
  ⟨by norm_num [get_velocity, approximate_velocity, splineConstA],
    by norm_num [get_velocity, approximate_velocity, splineConstA, get_pace],
    pace_pointwise splineConstA clusterSkip [] [] [2, 0] [25/3, 0]
      (by norm_num [get_velocity, approximate_velocity, splineConstA])
      (by norm_num [get_velocity, approximate_velocity, splineConstA, get_pace])⟩

/-- C9: every velocity array stored by `get_velocity` is pointwise
non-negative: negative spline-derivative samples are clamped to zero by
`approximate_velocity` before the array is returned. -/
theorem velocity_nonneg (splineDeriv : List ℚ → List ℚ → Option (List ℚ))
    (cluster : List ℚ → Option (List Nat)) (distance elapsed : List ℚ)
    (v : List ℚ)
    (hv : (get_velocity splineDeriv cluster distance elapsed).velocity = some v) :
    ∀ x ∈ v, 0 ≤ x := by
  unfold get_velocity at hv
  cases hap : approximate_velocity splineDeriv distance elapsed with
  | none => rw [hap] at hv; exact absurd hv (by simp)
  | some vel =>
      rw [hap] at hv
      simp only [Option.some.injEq] at hv
      subst hv
      unfold approximate_velocity at hap
      cases hsd : splineDeriv elapsed distance with
      | none => rw [hsd] at hap; exact absurd hap (by simp)
      | some raw =>
          rw [hsd] at hap
          rw [Option.map_some'] at hap
          simp only [Option.some.injEq] at hap
          subst hap
          intro x hx
          simp only [List.mem_map] at hx
          obtain ⟨y, -, rfl⟩ := hx
          rcases lt_or_ge y 0 with hy | hy
          · rw [if_pos hy]
          · rw [if_neg (not_lt.mpr hy)]; exact hy

/-- Witness for C9 with a spline stand-in producing a negative sample. -/
theorem velocity_nonneg_witness :
    (get_velocity splineConstB clusterSkip [] []).velocity = some [0, 2] ∧
    (0 : ℚ) ∈ ([0, 2] : List ℚ) ∧ (0 : ℚ) ≤ 0 :=
  ⟨by norm_num [get_velocity, approximate_velocity, splineConstB],
    by norm_num,
    velocity_nonneg splineConstB clusterSkip [] [] [0, 2]
      (by norm_num [get_velocity, approximate_velocity, splineConstB]) 0 (by norm_num)⟩

/-- C2 (code bug): a raw segment with zero track points assembles to
the empty mapping, with no keys at all rather than empty sequences, and
`process_segment` then fails on the unguarded read of the `lat` key
(`KeyError`) instead of degrading gracefully. -/
theorem process_segment_empty_raises :
    read_segment [] = Except.ok emptySegment ∧
    process_segment trigZero splineFailed clusterSkip 187 emptySegment =
      Except.error (PyErr.key "lat") := by
  exact ⟨rfl, rfl⟩

/-- C3 (code bug): a track point whose mandatory `lat` attribute is
missing is not silently dropped: `get_point_data` raises (the float
conversion of the missing attribute fails) and `read_segment` has no
handler, so the whole segment read aborts; reading the same segment
without the bad point succeeds. -/
theorem read_segment_bad_point_raises :
    read_segment [goodPoint, badPoint] = Except.error () ∧
    read_segment [goodPoint] =
      Except.ok { emptySegment with lat := some [60], lon := some [10] } := by
  exact ⟨rfl, rfl⟩

/-- For an always-successful geodesic function, `get_distances_go`
computes its pure form. -/
theorem get_distances_go_pure (d : ℚ × ℚ → ℚ × ℚ → ℚ) (ps : List (ℚ × ℚ))
    (prev : ℚ × ℚ) (acc : ℚ) :
    get_distances_go (fun a b => .ok (d a b)) prev acc ps =
      .ok (distGoPure d prev acc ps) := by
  induction ps generalizing prev acc with
  | nil => rfl
  | cons p ps ih => simp [get_distances_go, distGoPure, ih, Except.map]

/-- The pure accumulating loop returns one distance per remaining point. -/
theorem distGoPure_length (d : ℚ × ℚ → ℚ × ℚ → ℚ) (ps : List (ℚ × ℚ))
    (prev : ℚ × ℚ) (acc : ℚ) :
    (distGoPure d prev acc ps).length = ps.length := by
  induction ps generalizing prev acc with
  | nil => rfl
  | cons p ps ih => simp [distGoPure, ih]

/-- Recurrence of the pure accumulating loop: each entry past the first
adds the geodesic distance from the previous remaining point to the
current one (called with the current point first, as in the source). -/
theorem distGoPure_getD_succ (d : ℚ × ℚ → ℚ × ℚ → ℚ) (ps : List (ℚ × ℚ)) :
    ∀ (prev : ℚ × ℚ) (acc : ℚ) (i : Nat),
      i + 1 < (distGoPure d prev acc ps).length →
      (distGoPure d prev acc ps).getD (i + 1) 0 =
        (distGoPure d prev acc ps).getD i 0 +
          d (ps.getD (i + 1) (0, 0)) (ps.getD i (0, 0)) := by
  induction ps with
  | nil => intro prev acc i hi1; exact absurd hi1 (by simp [distGoPure])
  | cons p ps ih =>
      intro prev acc i hi1
      cases i with
      | zero =>
          cases ps with
          | nil => exact absurd hi1 (by simp [distGoPure])
          | cons q ps2 => rfl
      | succ j =>
          have hj1 : j + 1 < (distGoPure d p (acc + d p prev) ps).length := by
            simpa [distGoPure] using hi1
          simpa [distGoPure, List.getD_cons_succ] using
            ih p (acc + d p prev) j hj1

/-- With a pointwise non-negative geodesic function, the accumulator
followed by the pure loop output is a non-decreasing chain. -/
theorem distGoPure_chain (d : ℚ × ℚ → ℚ × ℚ → ℚ) (hd : ∀ a b, 0 ≤ d a b)
    (ps : List (ℚ × ℚ)) : ∀ (prev : ℚ × ℚ) (acc : ℚ),
    List.Chain' (· ≤ ·) (acc :: distGoPure d prev acc ps) := by
  induction ps with
  | nil => intro prev acc; simp [distGoPure]
  | cons p ps ih =>
      intro prev acc
      rw [distGoPure, List.chain'_cons]
      exact ⟨le_add_of_nonneg_right (hd p prev), ih p (acc + d p prev)⟩

/-- C6: for equal-length latitude and longitude lists and a symmetric
geodesic distance function (the Vincenty distance is symmetric in its
arguments; the source calls it with the current point first and the
previous point second), `get_distances` returns a list with one entry
per point whose first entry is `0` and where
`distance[i+1] = distance[i] + d(point[i], point[i+1])`; when the
geodesic function is pointwise non-negative the list is
non-decreasing. -/
theorem get_distances_cumulative (d : ℚ × ℚ → ℚ × ℚ → ℚ)
    (hsym : ∀ a b, d a b = d b a) (lat lon : List ℚ)
    (hlen : lat.length = lon.length) :
    ∃ ds : List ℚ,
      get_distances (fun a b => .ok (d a b)) lat lon = .ok ds ∧
      ds.length = lat.length ∧
      (∀ h0 : 0 < ds.length, ds.get ⟨0, h0⟩ = 0) ∧
      (∀ i, i + 1 < ds.length →
        ds.getD (i + 1) 0 =
          ds.getD i 0 +
            d ((lat.zip lon).getD i (0, 0)) ((lat.zip lon).getD (i + 1) (0, 0))) ∧
      ((∀ a b, 0 ≤ d a b) → List.Chain' (· ≤ ·) ds) := by
  cases hz : lat.zip lon with
  | nil =>
      refine ⟨[], ?_, ?_, ?_, ?_, ?_⟩
      · rw [get_distances, hz]
      · rcases List.zip_eq_nil_iff.mp hz with h | h
        · simp [h]
        · rw [hlen, h]
      · intro h0; exact absurd h0 (by simp)
      · intro i hi1; exact absurd hi1 (by simp)
      · intro _; simp
  | cons p ps =>
      refine ⟨0 :: distGoPure d p 0 ps, ?_, ?_, ?_, ?_, ?_⟩
      · simp [get_distances, hz, get_distances_go_pure, Except.map]
      · have hl : (lat.zip lon).length = lat.length := by
          rw [List.length_zip, hlen, min_self]
        rw [← hl, hz]
        simp [distGoPure_length]
      · intro h0; rfl
      · intro i hi1
        cases i with
        | zero =>
            cases ps with
            | nil => exact absurd hi1 (by simp [distGoPure])
            | cons q ps2 =>
                have : d q p = d p q := hsym q p
                simp [distGoPure, this]
        | succ j =>
            have hj1 : j + 1 < (distGoPure d p 0 ps).length := by
              simpa using hi1
            have := distGoPure_getD_succ d ps p 0 j hj1
            rw [List.getD_cons_succ, List.getD_cons_succ, List.getD_cons_succ,
              List.getD_cons_succ, this,
              hsym (ps.getD (j + 1) (0, 0)) (ps.getD j (0, 0))]
      · intro hd; exact distGoPure_chain d hd ps p 0

/-- Witness for C6 on a two-point segment with a constant symmetric
geodesic stand-in. -/
theorem get_distances_cumulative_witness :
    (∀ a b, distOne a b = distOne b a) ∧
    ([1, 2] : List ℚ).length = ([3, 4] : List ℚ).length ∧
    ∃ ds : List ℚ,
      get_distances (fun a b => .ok (distOne a b)) [1, 2] [3, 4] = .ok ds ∧
      ds.length = ([1, 2] : List ℚ).length ∧
      (∀ h0 : 0 < ds.length, ds.get ⟨0, h0⟩ = 0) ∧
      (∀ i, i + 1 < ds.length →
        ds.getD (i + 1) 0 =
          ds.getD i 0 +
            distOne ((([1, 2] : List ℚ).zip ([3, 4] : List ℚ)).getD i (0, 0))
              ((([1, 2] : List ℚ).zip ([3, 4] : List ℚ)).getD (i + 1) (0, 0))) ∧
      ((∀ a b, 0 ≤ distOne a b) → List.Chain' (· ≤ ·) ds) :=
  ⟨fun _ _ => rfl, rfl,
    get_distances_cumulative distOne (fun _ _ => rfl) [1, 2] [3, 4] rfl⟩

/-- Shifting the start of the `lambda` iterate sequence by one step. -/
theorem lambdaSeq_shift (T : TrigModel) (a : VPair) (l : ℚ) (k : Nat) :
    lambdaSeq T a ((vStep T a l).2) k = lambdaSeq T a l (k + 1) := by
  induction k with
  | zero => rfl
  | succ k ih => simp only [lambdaSeq, ih]

/-- If every iteration of the `vincenty` loop has a nonzero `sin_sigma`
and moves `lambda` by more than the tolerance, the loop exhausts its
fuel and reports non-convergence. -/
theorem vincentyLoop_not_converged (T : TrigModel) (a : VPair) (tol : ℚ) :
    ∀ (n : Nat) (lambd : ℚ),
      (∀ k < n, sinSigma T a (lambdaSeq T a lambd k) ≠ 0 ∧
        ¬ |lambdaSeq T a lambd k - lambdaSeq T a lambd (k + 1)| ≤ tol) →
      vincentyLoop T a tol n lambd = .error "vincenty formulae did not converge" := by
  intro n
  induction n with
  | zero => intro lambd _; rfl
  | succ n ih =>
      intro lambd h
      have h0 := h 0 (Nat.succ_pos n)
      have h01 : sinSigma T a lambd ≠ 0 := h0.1
      have h02 : ¬ |lambd - (vStep T a lambd).2| ≤ tol := h0.2
      simp only [vincentyLoop]
      rw [if_neg h01, if_neg h02]
      exact ih ((vStep T a lambd).2) (fun k hk => by
        have hk1 := h (k + 1) (Nat.succ_lt_succ hk)
        rwa [← lambdaSeq_shift, ← lambdaSeq_shift] at hk1)

/-- If `sin_sigma` vanishes at the top of the first iteration, the loop
takes the early return. -/
theorem vincentyLoop_sin_zero (T : TrigModel) (a : VPair) (tol : ℚ) (n : Nat)
    (lambd : ℚ) (h : sinSigma T a lambd = 0) :
    vincentyLoop T a tol (n + 1) lambd = .ok .zero := by
  simp [vincentyLoop, h]

/-- C4: when the iteration never comes within the tolerance (and the
zero-`sin_sigma` early return never fires) during `maxitr` iterations,
`vincenty` reports the convergence failure (the `ValueError` of the
source) instead of returning a distance. -/
theorem vincenty_no_convergence (T : TrigModel) (p1 p2 : ℚ × ℚ) (tol : ℚ)
    (maxitr : Nat)
    (h : ∀ k < maxitr,
      sinSigma T (vincentySetup T p1 p2)
          (lambdaSeq T (vincentySetup T p1 p2) (vincentySetup T p1 p2).diff_long k) ≠ 0 ∧
      ¬ |lambdaSeq T (vincentySetup T p1 p2) (vincentySetup T p1 p2).diff_long k -
          lambdaSeq T (vincentySetup T p1 p2) (vincentySetup T p1 p2).diff_long (k + 1)| ≤ tol) :
    vincenty T p1 p2 tol maxitr = .error "vincenty formulae did not converge" := by
  simp only [vincenty]
  rw [vincentyLoop_not_converged T (vincentySetup T p1 p2) tol maxitr _ h]

/-- Witness for C4: with the constant-one square root the early return
never fires, and with a negative tolerance no `lambda` step is ever
within tolerance, so the default 1000 iterations are exhausted. -/
theorem vincenty_no_convergence_witness :
    (∀ k < 1000,
      sinSigma trigOne (vincentySetup trigOne (0, 0) (0, 1))
          (lambdaSeq trigOne (vincentySetup trigOne (0, 0) (0, 1))
            (vincentySetup trigOne (0, 0) (0, 1)).diff_long k) ≠ 0 ∧
      ¬ |lambdaSeq trigOne (vincentySetup trigOne (0, 0) (0, 1))
            (vincentySetup trigOne (0, 0) (0, 1)).diff_long k -
          lambdaSeq trigOne (vincentySetup trigOne (0, 0) (0, 1))
            (vincentySetup trigOne (0, 0) (0, 1)).diff_long (k + 1)| ≤ (-1 : ℚ)) ∧
    vincenty trigOne (0, 0) (0, 1) (-1) 1000 =
      .error "vincenty formulae did not converge" := by
  have h : ∀ k < 1000,
      sinSigma trigOne (vincentySetup trigOne (0, 0) (0, 1))
          (lambdaSeq trigOne (vincentySetup trigOne (0, 0) (0, 1))
            (vincentySetup trigOne (0, 0) (0, 1)).diff_long k) ≠ 0 ∧
      ¬ |lambdaSeq trigOne (vincentySetup trigOne (0, 0) (0, 1))
            (vincentySetup trigOne (0, 0) (0, 1)).diff_long k -
          lambdaSeq trigOne (vincentySetup trigOne (0, 0) (0, 1))
            (vincentySetup trigOne (0, 0) (0, 1)).diff_long (k + 1)| ≤ (-1 : ℚ) := by
    intro k _
    constructor
    · simp [sinSigma, trigOne]
    · intro hle
      have h0 := abs_nonneg
        (lambdaSeq trigOne (vincentySetup trigOne (0, 0) (0, 1))
            (vincentySetup trigOne (0, 0) (0, 1)).diff_long k -
          lambdaSeq trigOne (vincentySetup trigOne (0, 0) (0, 1))
            (vincentySetup trigOne (0, 0) (0, 1)).diff_long (k + 1))
      linarith
  exact ⟨h, vincenty_no_convergence trigOne (0, 0) (0, 1) (-1) 1000 h⟩

/-- C5: for any trig model satisfying the exact identities `sin 0 = 0`,
`cos 0 = 1` and `sqrt 0 = 0` (all exact for IEEE doubles as well):
whenever the initial `sin_sigma` is exactly zero, `vincenty` returns
exactly `0` through the early return, without the iterative refinement;
in particular, for coincident points the reduced latitudes coincide and
the longitude difference is zero, so the initial `sin_sigma` vanishes
and `vincenty A A` is exactly `0`. -/
theorem vincenty_zero_cases (T : TrigModel) (hsin : T.sin 0 = 0)
    (hcos : T.cos 0 = 1) (hsqrt : T.sqrt 0 = 0) :
    (∀ p1 p2 (tol : ℚ) (maxitr : Nat), 0 < maxitr →
      sinSigma T (vincentySetup T p1 p2) (vincentySetup T p1 p2).diff_long = 0 →
      vincenty T p1 p2 tol maxitr = .ok 0) ∧
    (∀ A (tol : ℚ) (maxitr : Nat), 0 < maxitr →
      vincenty T A A tol maxitr = .ok 0) := by
  have general : ∀ p1 p2 (tol : ℚ) (maxitr : Nat), 0 < maxitr →
      sinSigma T (vincentySetup T p1 p2) (vincentySetup T p1 p2).diff_long = 0 →
      vincenty T p1 p2 tol maxitr = .ok 0 := by
    intro p1 p2 tol maxitr hm hz
    cases maxitr with
    | zero => exact absurd hm (lt_irrefl 0)
    | succ m =>
        simp only [vincenty]
        rw [vincentyLoop_sin_zero T (vincentySetup T p1 p2) tol m _ hz]
  refine ⟨general, ?_⟩
  intro A tol maxitr hm
  apply general A A tol maxitr hm
  have hdl : (vincentySetup T A A).diff_long = 0 := by
    simp [vincentySetup]
  have hs : (vincentySetup T A A).sin1 = (vincentySetup T A A).sin2 := rfl
  have hc : (vincentySetup T A A).cos1 = (vincentySetup T A A).cos2 := rfl
  simp only [sinSigma, hdl, hsin, hcos]
  rw [← hs, ← hc]
  rw [show ((vincentySetup T A A).cos1 * (0 : ℚ)) ^ 2 +
      ((vincentySetup T A A).cos1 * (vincentySetup T A A).sin1 -
        (vincentySetup T A A).sin1 * (vincentySetup T A A).cos1 * 1) ^ 2 = 0 from by ring]
  exact hsqrt

/-- Witness for C5 at the coincident point `(60, 10)` with the concrete
zero trig model and the default tolerance and iteration count. -/
theorem vincenty_zero_cases_witness :
    trigZero.sin 0 = 0 ∧ trigZero.cos 0 = 1 ∧ trigZero.sqrt 0 = 0 ∧
    0 < 1000 ∧
    vincenty trigZero (60, 10) (60, 10) defaultTol 1000 = .ok 0 :=
  ⟨rfl, rfl, rfl, by norm_num,
    (vincenty_zero_cases trigZero rfl rfl rfl).2 (60, 10) defaultTol 1000 (by norm_num)⟩

/-- The first `find_regions` pass never returns an empty list. -/
theorem scanChanges_ne_nil {α : Type} [DecidableEq α] (ys : List α) :
    ∀ (i : Nat) (ry : α), scanChanges i ry ys ≠ [] := by
  induction ys with
  | nil => intro i ry; simp [scanChanges]
  | cons y ys ih =>
      intro i ry
      simp only [scanChanges]
      split
      · exact ih (i + 1) ry
      · simp

/-- The first pass always begins with a pair carrying the current run
value, whose index is at least `i - 1`. -/
theorem scanChanges_head {α : Type} [DecidableEq α] (ys : List α) :
    ∀ (i : Nat) (ry : α), ∃ c rest,
      scanChanges i ry ys = (c, ry) :: rest ∧ i - 1 ≤ c := by
  induction ys with
  | nil => intro i ry; exact ⟨i - 1, [], rfl, le_refl _⟩
  | cons y ys ih =>
      intro i ry
      by_cases hy : y = ry
      · obtain ⟨c, rest, heq, hc⟩ := ih (i + 1) ry
        refine ⟨c, rest, ?_, ?_⟩
        · simp only [scanChanges]; rw [if_pos hy]; exact heq
        · omega
      · refine ⟨i, scanChanges (i + 1) y ys, ?_, ?_⟩
        · simp only [scanChanges]; rw [if_neg hy]
        · omega

/-- Decoding a change list from one index earlier prepends one copy of
the first pair value, provided the first change index lies beyond the
earlier index. -/
theorem decodeChanges_shift {α : Type} (v : α) (c : Nat) (rest : List (Nat × α))
    (i : Nat) (h1 : 1 ≤ i) (hc : i ≤ c) :
    decodeChanges (i - 1) ((c, v) :: rest) = v :: decodeChanges i ((c, v) :: rest) := by
  cases rest with
  | nil =>
      simp only [decodeChanges]
      rw [show c + 1 - (i - 1) = (c + 1 - i) + 1 from by omega, List.replicate_succ]
  | cons r rest2 =>
      simp only [decodeChanges]
      rw [show c - (i - 1) = (c - i) + 1 from by omega, List.replicate_succ,
        List.cons_append]

/-- Exactness of the first `find_regions` pass: decoding its output
from the index one before the scan start reproduces the current run
value followed by the remaining input. -/
theorem scanChanges_decode {α : Type} [DecidableEq α] (ys : List α) :
    ∀ (i : Nat) (ry : α), 1 ≤ i →
      decodeChanges (i - 1) (scanChanges i ry ys) = ry :: ys := by
  induction ys with
  | nil =>
      intro i ry h1
      simp only [scanChanges, decodeChanges]
      rw [show (i - 1) + 1 - (i - 1) = 1 from by omega]
      rfl
  | cons y ys ih =>
      intro i ry h1
      by_cases hy : y = ry
      · obtain ⟨c, rest, heq, hc⟩ := scanChanges_head ys (i + 1) ry
        have hic : i ≤ c := by omega
        simp only [scanChanges]
        rw [if_pos hy, heq, decodeChanges_shift ry c rest i h1 hic, ← heq]
        have hrec : decodeChanges i (scanChanges (i + 1) ry ys) = ry :: ys :=
          ih (i + 1) ry (by omega)
        rw [hrec, hy]
      · obtain ⟨c, rest, heq, hc⟩ := scanChanges_head ys (i + 1) y
        simp only [scanChanges]
        rw [if_neg hy, heq]
        show List.replicate (i - (i - 1)) ry ++ decodeChanges i ((c, y) :: rest) =
          ry :: y :: ys
        rw [show i - (i - 1) = 1 from by omega, ← heq]
        have hrec : decodeChanges i (scanChanges (i + 1) y ys) = y :: ys :=
          ih (i + 1) y (by omega)
        rw [hrec]
        rfl

/-- The last pair of the first `find_regions` pass records the index of
the last element of the scanned list. -/
theorem scanChanges_getLast? {α : Type} [DecidableEq α] (ys : List α) :
    ∀ (i : Nat) (ry : α),
      ((scanChanges i ry ys).getLast?).map Prod.fst = some (i + ys.length - 1) := by
  induction ys with
  | nil => intro i ry; rfl
  | cons y ys ih =>
      intro i ry
      by_cases hy : y = ry
      · simp only [scanChanges]
        rw [if_pos hy, ih (i + 1) ry]
        congr 1
        simp only [List.length_cons]
        omega
      · obtain ⟨c, rest, heq, hc⟩ := scanChanges_head ys (i + 1) y
        simp only [scanChanges]
        rw [if_neg hy, heq, List.getLast?_cons_cons, ← heq, ih (i + 1) y]
        congr 1
        simp only [List.length_cons]
        omega

/-- The second `find_regions` pass keeps one triple per change pair. -/
theorem pass2_length {α : Type} (cs : List (Nat × α)) :
    ∀ prev, (pass2 prev cs).length = cs.length := by
  induction cs with
  | nil => intro prev; rfl
  | cons cv rest ih =>
      intro prev
      obtain ⟨c, v⟩ := cv
      simp only [pass2, List.length_cons, ih c]

/-- Decoding the triples produced by the second pass agrees with
decoding the change list it was built from. -/
theorem decodeRegions_pass2 {α : Type} (cs : List (Nat × α)) :
    ∀ prev, decodeRegions (pass2 prev cs) = decodeChanges prev cs := by
  induction cs with
  | nil => intro prev; rfl
  | cons cv rest ih =>
      intro prev
      obtain ⟨c, v⟩ := cv
      cases rest with
      | nil => rfl
      | cons r rest2 =>
          obtain ⟨rc, rv⟩ := r
          show List.replicate (c - prev) v ++
              decodeRegions (pass2 c ((rc, rv) :: rest2)) =
            List.replicate (c - prev) v ++ decodeChanges c ((rc, rv) :: rest2)
          rw [ih c]

/-- Adjacent triples produced by the second pass share their boundary:
each region starts at the previous region end index. -/
theorem pass2_chain {α : Type} (cs : List (Nat × α)) :
    ∀ prev, List.Chain' (fun a b : Nat × Nat × α => b.1 = a.2.1) (pass2 prev cs) := by
  induction cs with
  | nil => intro prev; simp [pass2]
  | cons cv rest ih =>
      intro prev
      obtain ⟨c, v⟩ := cv
      cases rest with
      | nil => simp [pass2]
      | cons r rest2 =>
          obtain ⟨rc, rv⟩ := r
          have htail := ih c
          simp only [pass2] at htail ⊢
          rw [List.chain'_cons]
          exact ⟨rfl, htail⟩

/-- The second pass preserves the final change index as the last region
end index. -/
theorem pass2_getLast? {α : Type} (cs : List (Nat × α)) :
    ∀ prev, ((pass2 prev cs).getLast?).map (fun r => r.2.1) =
      (cs.getLast?).map Prod.fst := by
  induction cs with
  | nil => intro prev; rfl
  | cons cv rest ih =>
      intro prev
      obtain ⟨c, v⟩ := cv
      cases rest with
      | nil => rfl
      | cons r rest2 =>
          obtain ⟨rc, rv⟩ := r
          simp only [pass2]
          rw [List.getLast?_cons_cons, List.getLast?_cons_cons]
          exact ih c

/-- C1 (amended): for every non-empty value list, `find_regions`
produces a non-empty region list whose first region starts at index 0,
whose last region ends at the last index, and in which each region
starts exactly at the end index of its predecessor (so consecutive
regions share their boundary index, the single deviation from the
claimed disjoint inclusive ranges); decoding the regions — each region
value holding on `[start, end)` and the last also at its end index —
reproduces the value list exactly, so the regions cover `[0, len - 1]`
in index order with no gaps and the region values match the data on
those half-open ranges. -/
theorem find_regions_regions_spec {α : Type} [DecidableEq α] (yval : List α)
    (h : yval ≠ []) :
    find_regions yval ≠ [] ∧
    ((find_regions yval).head?).map (fun r => r.1) = some 0 ∧
    ((find_regions yval).getLast?).map (fun r => r.2.1) = some (yval.length - 1) ∧
    List.Chain' (fun a b => b.1 = a.2.1) (find_regions yval) ∧
    decodeRegions (find_regions yval) = yval := by
  cases yval with
  | nil => exact absurd rfl h
  | cons y ys =>
      obtain ⟨c, rest, heq, hc⟩ := scanChanges_head ys 1 y
      have hfr : find_regions (y :: ys) = (0, c, y) :: pass2 c rest := by
        show pass2 0 (scanChanges 1 y ys) = _
        rw [heq]
        rfl
      refine ⟨?_, ?_, ?_, ?_, ?_⟩
      · rw [hfr]; simp
      · rw [hfr]; rfl
      · calc ((find_regions (y :: ys)).getLast?).map (fun r => r.2.1)
            = ((pass2 0 (scanChanges 1 y ys)).getLast?).map (fun r => r.2.1) := rfl
          _ = ((scanChanges 1 y ys).getLast?).map Prod.fst :=
              pass2_getLast? (scanChanges 1 y ys) 0
          _ = some (1 + ys.length - 1) := scanChanges_getLast? ys 1 y
          _ = some ((y :: ys).length - 1) := by
              congr 1
              simp
      · show List.Chain' _ (pass2 0 (scanChanges 1 y ys))
        exact pass2_chain (scanChanges 1 y ys) 0
      · calc decodeRegions (find_regions (y :: ys))
            = decodeRegions (pass2 0 (scanChanges 1 y ys)) := rfl
          _ = decodeChanges 0 (scanChanges 1 y ys) :=
              decodeRegions_pass2 (scanChanges 1 y ys) 0
          _ = y :: ys := scanChanges_decode ys 1 y (le_refl 1)

/-- Witness for the amended C1 on the list `[1, 1, 2]`, whose regions
are `[(0, 2, 1), (2, 2, 2)]`. -/
theorem find_regions_regions_spec_witness :
    ([1, 1, 2] : List ℚ) ≠ [] ∧
    (find_regions ([1, 1, 2] : List ℚ) ≠ [] ∧
      ((find_regions ([1, 1, 2] : List ℚ)).head?).map (fun r => r.1) = some 0 ∧
      ((find_regions ([1, 1, 2] : List ℚ)).getLast?).map (fun r => r.2.1) =
        some (([1, 1, 2] : List ℚ).length - 1) ∧
      List.Chain' (fun a b => b.1 = a.2.1) (find_regions ([1, 1, 2] : List ℚ)) ∧
      decodeRegions (find_regions ([1, 1, 2] : List ℚ)) = [1, 1, 2]) :=
  ⟨by decide, find_regions_regions_spec [1, 1, 2] (by decide)⟩

/-- Counterexample to C1 as stated: on the zone array `[1, 2]` the
code produces the regions `[(0, 1, 1), (1, 1, 2)]`, whose first region
claims value 1 on the inclusive range `[0, 1]` although the data at
index 1 is 2 (and the two inclusive ranges `[0, 1]` and `[1, 1]`
overlap at index 1). -/
theorem find_regions_claim_counterexample :
    find_regions ([1, 2] : List ℚ) = [(0, 1, 1), (1, 1, 2)] ∧
    ¬ regionsMatchClaim [1, 2] := by
  constructor
  · decide
  · intro hclaim
    have h := hclaim (0, 1, 1) (by decide) 1 (by norm_num) (by norm_num)
    norm_num at h

end Gpxplotter
